import Mathlib

/-!
Verification development for the request-to-evidence pipeline of
`src/app/api/chat/route.ts` (On-Prem-AI-Canvas).

The TypeScript source is embedded shallowly:

* untrusted decoded JSON values (`unknown` in the source) become the
  inductive type `JAny`; JavaScript coercions `String(x)` and `Number(x)`
  become `jToString` / `jToNumOpt` (numbers are modelled as integers, so
  fractional literals, hex and exponent forms are out of scope; the
  clamping code applies `Math.floor`, which is the identity on integers);
* string-union enumerations of the source (`VizKind`, `Template`, ...)
  stay plain `String`s checked against the same allowed-value lists;
* the stateful guardrail mutation `ensureGuardrails` becomes a function
  returning the updated plan;
* remote calls are abstracted: the Splunk MCP response becomes an oracle
  `String → Int → List McpRow` (query and row limit determine the rows),
  and the wall clock used for panel ids / mock time labels becomes an
  explicit parameter.  Neither abstraction affects the claims, which are
  about plan validation, query compilation and emission order.
-/

set_option maxRecDepth 1000000

/-- A decoded JSON/JavaScript value of unknown shape (`unknown` in the
source).  `jnull` stands for JavaScript `null`; an absent object field is
`Option.none` at lookup time (JavaScript `undefined`). -/
inductive JAny where
  | jnull : JAny
  | jbool : Bool → JAny
  | jnum : Int → JAny
  | jstr : String → JAny
  | jarr : List JAny → JAny
  | jobj : List (String × JAny) → JAny
deriving Repr

/-- JavaScript `String(x)` on a defined value, paced by a fuel argument
(structural recursion on the fuel keeps the function kernel-reducible).
An array stringifies as its elements joined with `,`, `null` elements
rendered empty (`Array.prototype.toString`). -/
def jToStringGo : Nat → JAny → String
  | 0, _ => ""
  | fuel + 1, v =>
    match v with
    | JAny.jnull => "null"
    | JAny.jbool true => "true"
    | JAny.jbool false => "false"
    | JAny.jnum n => toString n
    | JAny.jstr s => s
    | JAny.jobj _ => "[object Object]"
    | JAny.jarr xs =>
      String.intercalate "," (xs.map (fun x =>
        match x with
        | JAny.jnull => ""
        | y => jToStringGo fuel y))

/-- JavaScript `String(x)` on a defined value.  One unit of fuel is spent
per array-nesting level, so the constant fuel is exact for every value
whose arrays nest less than a billion deep. -/
def jToString (v : JAny) : String :=
  jToStringGo 1000000000 v

/-- JavaScript `Array.prototype.toString`. -/
def jArrToString (xs : List JAny) : String :=
  jToString (JAny.jarr xs)

/-- Field lookup `obj?.k`: `Option.none` models JavaScript `undefined`
(non-object receiver or missing key). -/
def jGet (j : JAny) (k : String) : Option JAny :=
  match j with
  | JAny.jobj fs => (fs.find? (fun kv => kv.1 = k)).map (fun kv => kv.2)
  | _ => Option.none

/-- `String(obj?.k)`; an absent field stringifies to `"undefined"`. -/
def jFieldStr (j : JAny) (k : String) : String :=
  match jGet j k with
  | some v => jToString v
  | Option.none => "undefined"

/-- List-based trim (ASCII whitespace at both ends), used in place of
`String.trim` so that terms reduce inside the kernel. -/
def String.strTrim (s : String) : String :=
  String.mk (((s.data.dropWhile Char.isWhitespace).reverse.dropWhile Char.isWhitespace).reverse)

/-- List-based lowercasing, used in place of `String.toLower` so that
terms reduce inside the kernel. -/
def String.strToLower (s : String) : String :=
  String.mk (s.data.map Char.toLower)

/-- List-based uppercasing, used in place of `String.toUpper`. -/
def String.strToUpper (s : String) : String :=
  String.mk (s.data.map Char.toUpper)

/-- Decimal value of a digit list. -/
def digitsToNat (l : List Char) : Nat :=
  l.foldl (fun acc c => acc * 10 + (c.toNat - 48)) 0

/-- Integer-literal fragment of JavaScript `Number(string)`: trimmed,
empty string is `0`, otherwise an optional sign followed by digits only;
anything else is NaN (`Option.none`). -/
def parseNumJS (s : String) : Option Int :=
  let t := s.strTrim
  if t = "" then some 0
  else
    match t.data with
    | '-' :: ds => if ds ≠ [] ∧ ds.all Char.isDigit then some (-(digitsToNat ds : Int)) else Option.none
    | '+' :: ds => if ds ≠ [] ∧ ds.all Char.isDigit then some ((digitsToNat ds : Int)) else Option.none
    | ds => if ds.all Char.isDigit then some ((digitsToNat ds : Int)) else Option.none

/-- JavaScript `Number(x)` restricted to finite integer outcomes;
`Option.none` models NaN (so also `undefined`). -/
def jToNumOpt : Option JAny → Option Int
  | Option.none => Option.none
  | some JAny.jnull => some 0
  | some (JAny.jbool b) => some (if b then 1 else 0)
  | some (JAny.jnum n) => some n
  | some (JAny.jstr s) => parseNumJS s
  | some (JAny.jarr xs) => parseNumJS (jArrToString xs)
  | some (JAny.jobj _) => Option.none

/-- JavaScript truthiness of `x` in `String(x || "")`: the falsy values
among our modelled ones are `null`, `false`, `0` and `""`. -/
def jFalsy : JAny → Bool
  | JAny.jnull => true
  | JAny.jbool b => !b
  | JAny.jnum n => n = 0
  | JAny.jstr s => s = ""
  | _ => false

/-- `String(x || "")` as used when cleaning severity and tag arrays. -/
def jOrEmptyStr (x : JAny) : String :=
  if jFalsy x then "" else jToString x

/-- Whether `pat` starts `l` (structural checker). -/
def listPrefixChk : List Char → List Char → Bool
  | [], _ => true
  | _ :: _, [] => false
  | a :: as, b :: bs => a = b && listPrefixChk as bs

/-- Whether `pat` occurs inside `l` (structural checker). -/
def listInfixChk (pat : List Char) : List Char → Bool
  | [] => listPrefixChk pat []
  | c :: rest => listPrefixChk pat (c :: rest) || listInfixChk pat rest

/-- Whether `pat` occurs as a substring of `s` (`String.prototype.includes`). -/
def containsSub (s pat : String) : Bool :=
  listInfixChk pat.data s.data

/-- Source `clampInt`: non-finite input yields the default, otherwise the
value is clamped into `[lo, hi]` (`Math.floor` is the identity here
because numbers are modelled as integers). -/
def clampInt (n : Option Int) (lo hi dflt : Int) : Int :=
  match n with
  | Option.none => dflt
  | some x => min hi (max lo x)

/-- Source `detectLanguage`: `/[一-鿿]/.test(msg)`. -/
def detectLanguage (msg : String) : String :=
  if msg.data.any (fun c => 0x4e00 ≤ c.toNat ∧ c.toNat ≤ 0x9fff) then "zh" else "en"

/-- First replacement pass of `escapeSplString`: every backslash doubled
(`.replace(/\\/g, "\\\\")`). -/
def escBackslash : List Char → List Char
  | [] => []
  | c :: rest => (if c = '\\' then ['\\', '\\'] else [c]) ++ escBackslash rest

/-- Second replacement pass of `escapeSplString`: every double quote
escaped (`.replace(/"/g, '\\"')`). -/
def escQuote : List Char → List Char
  | [] => []
  | c :: rest => (if c = '"' then ['\\', '"'] else [c]) ++ escQuote rest

/-- Source `escapeSplString`: double backslashes, then escape quotes. -/
def escapeSplString (s : String) : String :=
  String.mk (escQuote (escBackslash s.data))

/-- Inverse of the escaping: a backslash consumes the following character
verbatim. -/
def unescapeSplList : List Char → List Char
  | [] => []
  | c :: rest =>
    if c = '\\' then
      match rest with
      | [] => ['\\']
      | d :: rest2 => d :: unescapeSplList rest2
    else c :: unescapeSplList rest

/-- String-level unescaping. -/
def unescapeSplString (s : String) : String :=
  String.mk (unescapeSplList s.data)

theorem unescapeSplList_cons_ne (c : Char) (rest : List Char) (h : ¬c = '\\') :
    unescapeSplList (c :: rest) = c :: unescapeSplList rest := by
  cases rest <;> simp [unescapeSplList, h]

/-- Case-insensitive anchored literal match: if the head of `l` spells
`pat` (which is given lowercase) up to `Char.toLower`, return the rest. -/
def ciPrefixRest : List Char → List Char → Option (List Char)
  | [], l => some l
  | _ :: _, [] => Option.none
  | p :: ps, c :: cs => if c.toLower = p then ciPrefixRest ps cs else Option.none

/-- Consume exactly `n` decimal digits, returning the rest. -/
def dropDigits : Nat → List Char → Option (List Char)
  | 0, l => some l
  | _ + 1, [] => Option.none
  | n + 1, c :: cs => if c.isDigit then dropDigits n cs else Option.none

/-- Anchored match for `/attack\.t\d{4}(?:\.\d{3})?/i`; returns the match
length (12, or 16 when the optional `.ddd` group matches). -/
def matchAttackTag (l : List Char) : Option Nat :=
  match ciPrefixRest "attack.t".data l with
  | Option.none => Option.none
  | some r1 =>
    match dropDigits 4 r1 with
    | Option.none => Option.none
    | some r2 =>
      match r2 with
      | '.' :: r3 =>
        match dropDigits 3 r3 with
        | some _ => some 16
        | Option.none => some 12
      | _ => some 12

/-- Character class `[a-z0-9._-]` under the `i` flag. -/
def nistClassChar (c : Char) : Bool :=
  c.isAlpha || c.isDigit || c = '.' || c = '_' || c = '-'

/-- Anchored match for `/nist\.[a-z0-9._-]+/i` (greedy); returns the match
length. -/
def matchNistTag (l : List Char) : Option Nat :=
  match ciPrefixRest "nist.".data l with
  | Option.none => Option.none
  | some r1 =>
    let k := (r1.takeWhile nistClassChar).length
    if k = 0 then Option.none else some (5 + k)

/-- Global regex scan (`String.prototype.match` with the `g` flag): find
anchored matches left to right, resuming after each match.  Both matchers
above return lengths ≥ 1, so `max n 1` is the identity on their results.
The recursion is paced by a fuel argument for kernel reducibility; every
step consumes at least one character, so fuel equal to the list length
(as supplied by `scanAll`) never runs out. -/
def scanAllGo (f : List Char → Option Nat) : Nat → List Char → List String
  | 0, _ => []
  | _ + 1, [] => []
  | fuel + 1, c :: rest =>
    match f (c :: rest) with
    | some n =>
      String.mk ((c :: rest).take (max n 1)) :: scanAllGo f fuel ((c :: rest).drop (max n 1))
    | Option.none => scanAllGo f fuel rest

/-- Entry point of the global scan. -/
def scanAll (f : List Char → Option Nat) (l : List Char) : List String :=
  scanAllGo f l.length l

/-- Insertion-order deduplication (`Set` insertion followed by
`Array.from`). -/
def addUnique (acc : List String) (x : String) : List String :=
  if x ∈ acc then acc else acc ++ [x]

/-- Source `extractTagTokens`: all matches of the attack-tag regex, then
all matches of the NIST-tag regex, lowercased and deduplicated keeping
first occurrences. -/
def extractTagTokens (userMsg : String) : List String :=
  let m1 := (scanAll matchAttackTag userMsg.data).map String.strToLower
  let m2 := (scanAll matchNistTag userMsg.data).map String.strToLower
  (m1 ++ m2).foldl addUnique []

/-- Source `userExplicitTagIntent`. -/
def userExplicitTagIntent (userMsg : String) : Bool :=
  let s := userMsg.strToLower
  if containsSub s "mitre" || containsSub s "att&ck" || containsSub s "attack." then true
  else if containsSub s "nist" then true
  else !(extractTagTokens userMsg).isEmpty

/-- Source `containsNetworkActivityIntent` (the last test is the regex
`/网络/`). -/
def containsNetworkActivityIntent (userMsg : String) : Bool :=
  let s := userMsg.strToLower
  containsSub s "network activity" || containsSub s "egress" || containsSub s "ingress" ||
    containsSub userMsg "网络"

/-- Source `Filters` (optional fields; absent = no constraint). -/
structure Filters where
  severity_exact : Option (List String) := Option.none
  description_like : Option String := Option.none
  details_like : Option String := Option.none
  node_like : Option String := Option.none
  has_network_activity : Option Bool := Option.none
  tags_exact : Option (List String) := Option.none
deriving DecidableEq, Repr

/-- Source `OutputSpec` (enumeration fields kept as strings as in the
TypeScript string unions). -/
structure OutputSpec where
  kind : String
  title : String
  template : String
  group_by : Option String := Option.none
  limit : Option Int := Option.none
  span : Option String := Option.none
  split : Option String := Option.none
deriving DecidableEq, Repr

/-- Source security `Plan`. -/
structure Plan where
  language : String
  earliest_time : String
  latest_time : String
  filters : Filters
  outputs : List OutputSpec
deriving DecidableEq, Repr

def allowedKindList : List String := ["none", "single", "table", "bar", "pie", "line"]

def allowedTemplateList : List String := ["count", "table", "count_by", "trend"]

def allowedGroupList : List String :=
  ["Severity", "node_pod_container", "recent_network_activity", "tag"]

def allowedSplitList : List String := ["none", "severity"]

/-- Ternary `allowedKind.has(String(o?.kind)) ? ... : "none"`. -/
def coerceKind (v : String) : String :=
  if v ∈ allowedKindList then v else "none"

/-- Ternary coercion of `template`, defaulting to `"table"`. -/
def coerceTemplate (v : String) : String :=
  if v ∈ allowedTemplateList then v else "table"

/-- Ternary coercion of `group_by`, defaulting to `"Severity"`. -/
def coerceGroupBy (v : String) : String :=
  if v ∈ allowedGroupList then v else "Severity"

/-- Ternary coercion of `split`, defaulting to `"none"`. -/
def coerceSplit (v : String) : String :=
  if v ∈ allowedSplitList then v else "none"

/-- `typeof rawTitle === "string" && rawTitle.strTrim() ? rawTitle.strTrim() : "Result"`. -/
def coerceTitle (o : JAny) : String :=
  match jGet o "title" with
  | some (JAny.jstr s) => if s.strTrim ≠ "" then s.strTrim else "Result"
  | _ => "Result"

/-- `typeof rawSpan === "string" && rawSpan.strTrim() ? rawSpan.strTrim() : "5m"`. -/
def coerceSpan (o : JAny) : String :=
  match jGet o "span" with
  | some (JAny.jstr s) => if s.strTrim ≠ "" then s.strTrim else "5m"
  | _ => "5m"

/-- Body of the `normalizeOutputs` loop for one raw element.  The source's
four sequential `if (template === ...)` blocks are mutually exclusive, so
they are rendered as a chain; the final branch is `template = "table"`,
the only remaining value. -/
def normalizeOutputSpec (o : JAny) : OutputSpec :=
  let kind := coerceKind (jFieldStr o "kind")
  let template := coerceTemplate (jFieldStr o "template")
  let title := coerceTitle o
  if template = "count_by" then
    { kind := if kind ≠ "bar" ∧ kind ≠ "pie" then "bar" else kind,
      template := template, title := title,
      group_by := some (coerceGroupBy (jFieldStr o "group_by")),
      limit := some (clampInt (jToNumOpt (jGet o "limit")) 3 50 10) }
  else if template = "trend" then
    { kind := "line", template := template, title := title,
      span := some (coerceSpan o),
      split := some (coerceSplit (jFieldStr o "split")) }
  else if template = "count" then
    { kind := "single", template := template, title := title }
  else
    { kind := "table", template := template, title := title,
      limit := some (clampInt (jToNumOpt (jGet o "limit")) 5 200 50) }

/-- Source `normalizeOutputs`: non-array input yields `[]`; each element
is coerced independently. -/
def normalizeOutputs (rawOutputs : Option JAny) : List OutputSpec :=
  let outputsIn := match rawOutputs with
    | some (JAny.jarr xs) => xs
    | _ => []
  outputsIn.map normalizeOutputSpec

/-- Nullish coalescing `a ?? b`. -/
def jCoalesce (a b : Option JAny) : Option JAny :=
  match a with
  | some JAny.jnull => b
  | Option.none => b
  | some v => some v

/-- Character class `[a-z0-9._-]` (applied after lowercasing). -/
def tagShapeChar (c : Char) : Bool :=
  ('a' ≤ c && c ≤ 'z') || c.isDigit || c = '.' || c = '_' || c = '-'

/-- Full-string test `/^[a-z0-9._-]+$/`. -/
def tagShapeOK (x : String) : Bool :=
  !x.data.isEmpty && x.data.all tagShapeChar

/-- Source `normalizePlan`.  The `process.env.DEFAULT_*_TIME` fallbacks
are modelled with the environment unset, so they reduce to the literals
`"-15m"` and `"now"`. -/
def normalizePlan (raw : JAny) (userMsg : String) : Plan :=
  let lang := detectLanguage userMsg
  let earliest_time := match jGet raw "earliest_time" with
    | some (JAny.jstr s) => if s.strTrim ≠ "" then s.strTrim else "-15m"
    | _ => "-15m"
  let latest_time := match jGet raw "latest_time" with
    | some (JAny.jstr s) => if s.strTrim ≠ "" then s.strTrim else "now"
    | _ => "now"
  let rf := (jGet raw "filters").getD (JAny.jobj [])
  let sevRaw := jCoalesce (jGet rf "severity_exact") (jGet rf "severity")
  let severity_exact := match sevRaw with
    | some (JAny.jarr xs) =>
      let cleaned := (xs.map (fun x => (jOrEmptyStr x).strTrim.strToUpper)).filter
        (fun x => x = "CRITICAL" || x = "WARNING" || x = "INFO")
      if cleaned.isEmpty then Option.none else some cleaned
    | _ => Option.none
  let description_like := match jGet rf "description_like" with
    | some (JAny.jstr s) => if s.strTrim ≠ "" then some s.strTrim else Option.none
    | _ => Option.none
  let details_like := match jGet rf "details_like" with
    | some (JAny.jstr s) => if s.strTrim ≠ "" then some s.strTrim else Option.none
    | _ => Option.none
  let node_like := match jGet rf "node_like" with
    | some (JAny.jstr s) => if s.strTrim ≠ "" then some s.strTrim else Option.none
    | _ => Option.none
  let has_network_activity := match jGet rf "has_network_activity" with
    | some (JAny.jbool b) => some b
    | _ => Option.none
  let tags_exact := match jGet rf "tags_exact" with
    | some (JAny.jarr xs) =>
      let cleaned := (xs.map (fun x => (jOrEmptyStr x).strTrim.strToLower)).filter tagShapeOK
      if cleaned.isEmpty then Option.none else some cleaned
    | _ => Option.none
  { language := lang, earliest_time := earliest_time, latest_time := latest_time,
    filters := { severity_exact := severity_exact, description_like := description_like,
                 details_like := details_like, node_like := node_like,
                 has_network_activity := has_network_activity, tags_exact := tags_exact },
    outputs := normalizeOutputs (jGet raw "outputs") }

/-- The synthesized default output `{ kind: "table", title: "Events",
template: "table", limit: 50 }`. -/
def defaultEventsTable : OutputSpec :=
  { kind := "table", title := "Events", template := "table", limit := some 50 }

/-- Source `ensureGuardrails`, as a function returning the mutated plan:
re-derive language and tag filter from the raw user text, force the
network-activity flag on intent, guarantee a non-empty meaningful output
list, truncate to 4. -/
def ensureGuardrails (plan : Plan) (userMsg : String) : Plan :=
  let tokens := extractTagTokens userMsg
  let tags := if !userExplicitTagIntent userMsg || tokens.isEmpty then Option.none
              else some tokens
  let hna := if containsNetworkActivityIntent userMsg ∧
                plan.filters.has_network_activity = Option.none
             then some true else plan.filters.has_network_activity
  let outs0 := if plan.outputs.isEmpty then [defaultEventsTable] else plan.outputs
  let outs1 := if outs0.any (fun o => o.kind ≠ "none") then outs0 else [defaultEventsTable]
  { language := detectLanguage userMsg,
    earliest_time := plan.earliest_time, latest_time := plan.latest_time,
    filters := { plan.filters with tags_exact := tags, has_network_activity := hna },
    outputs := outs1.take 4 }

/-- Source `BASE_SEARCH` preamble. -/
def BASE_SEARCH : String :=
  String.intercalate "\n"
    ["| savedsearch \"Event_Table\"",
     "| eval _time=strptime(Time,\"%Y-%m-%d %H:%M:%S\")",
     "| rename \"Recent Network Activity\" as recent_network_activity \"Node: Pod/Container\" as node_pod_container"]

/-- Source `buildFilterPipeline`: tag-membership lines first, then one
combined `| where` clause AND-ing the remaining filters. -/
def buildFilterPipeline (filters : Filters) : List String :=
  let tagLines := match filters.tags_exact with
    | some ts =>
      if !ts.isEmpty then
        let ors := String.intercalate " OR "
          (ts.map (fun t => "mvfind(__tags,\"" ++ escapeSplString t ++ "\")>=0"))
        ["| eval __tags=split(Tags, \", \")", "| where (" ++ ors ++ ")"]
      else []
    | Option.none => []
  let sevClauses := match filters.severity_exact with
    | some l =>
      if !l.isEmpty then
        ["in(Severity, " ++
          String.intercalate "," (l.map (fun s => "\"" ++ escapeSplString s ++ "\"")) ++ ")"]
      else []
    | Option.none => []
  let descClauses := match filters.description_like with
    | some v => if v.length > 0 then ["like(Description, \"%" ++ escapeSplString v ++ "%\")"] else []
    | Option.none => []
  let detClauses := match filters.details_like with
    | some v => if v.length > 0 then ["like(Details, \"%" ++ escapeSplString v ++ "%\")"] else []
    | Option.none => []
  let nodeClauses := match filters.node_like with
    | some v => if v.length > 0 then ["like(node_pod_container, \"%" ++ escapeSplString v ++ "%\")"] else []
    | Option.none => []
  let netClauses := match filters.has_network_activity with
    | some b => [if b then "recent_network_activity!=\"N/A\"" else "recent_network_activity=\"N/A\""]
    | Option.none => []
  let clauses := sevClauses ++ descClauses ++ detClauses ++ nodeClauses ++ netClauses
  let whereLines := if !clauses.isEmpty then ["| where " ++ String.intercalate " AND " clauses] else []
  tagLines ++ whereLines

/-- Source `splCount`. -/
def splCount (filters : Filters) : String :=
  String.intercalate "\n" ([BASE_SEARCH] ++ buildFilterPipeline filters ++ ["| stats count as value"])

/-- Source `splTable`. -/
def splTable (filters : Filters) (limit : Int) : String :=
  let n := clampInt (some limit) 5 200 50
  String.intercalate "\n"
    ([BASE_SEARCH] ++ buildFilterPipeline filters ++
     ["| sort 0 -_time",
      "| head " ++ toString n,
      "| table Time Severity Description Tags Details recent_network_activity node_pod_container",
      "| rename recent_network_activity as \"Recent Network Activity\" node_pod_container as \"Node: Pod/Container\""])

/-- Source `splCountBy`. -/
def splCountBy (filters : Filters) (groupBy : String) (limit : Int) : String :=
  let n := clampInt (some limit) 3 50 10
  let fp := buildFilterPipeline filters
  if groupBy = "tag" then
    String.intercalate "\n"
      ([BASE_SEARCH] ++ fp ++
       ["| eval tag=split(Tags, \", \")", "| mvexpand tag",
        "| stats count as count by tag", "| sort 0 -count", "| head " ++ toString n])
  else if groupBy = "Severity" then
    String.intercalate "\n"
      ([BASE_SEARCH] ++ fp ++
       ["| stats count as count by Severity", "| sort 0 -count", "| head " ++ toString n])
  else if groupBy = "node_pod_container" then
    String.intercalate "\n"
      ([BASE_SEARCH] ++ fp ++
       ["| stats count as count by node_pod_container", "| sort 0 -count", "| head " ++ toString n])
  else
    String.intercalate "\n"
      ([BASE_SEARCH] ++ fp ++
       ["| stats count as count by recent_network_activity", "| sort 0 -count", "| head " ++ toString n])

/-- Source `splTrend`.  Note: the bucket value (the model-supplied `span`
string, merely trimmed) is interpolated verbatim into the `timechart`
command, without passing through `escapeSplString`. -/
def splTrend (filters : Filters) (span : String) (split : String) : String :=
  let fp := buildFilterPipeline filters
  let bucket := if span.strTrim ≠ "" then span.strTrim else "5m"
  if split = "severity" then
    String.intercalate "\n"
      ([BASE_SEARCH] ++ fp ++
       ["| timechart span=" ++ bucket,
        "  count as total",
        "  count(eval(Severity=\"CRITICAL\")) as critical",
        "  count(eval(Severity=\"WARNING\")) as warning",
        "  count(eval(Severity=\"INFO\")) as info",
        "| eval time=strftime(_time,\"%H:%M\")",
        "| fields time total critical warning info"])
  else
    String.intercalate "\n"
      ([BASE_SEARCH] ++ fp ++
       ["| timechart span=" ++ bucket ++ " count as total",
        "| eval time=strftime(_time,\"%H:%M\")",
        "| fields time total"])

/-- Source `ObservabilityRequest` (enumeration fields as strings). -/
structure ObsRequest where
  mcp : String
  tool : String
  target : String
  metric : String
  viz : String
  title : String
deriving DecidableEq, Repr

/-- Source `ObservabilityPlan`. -/
structure ObsPlan where
  language : String
  earliest_time : String
  latest_time : String
  requests : List ObsRequest
deriving DecidableEq, Repr

def OBSERVABILITY_ALLOWED_TIMES : List String := ["-15m", "-30m", "-60m"]

def OBSERVABILITY_ALLOWED_MCPS : List String := ["grafana", "hubble", "ndi"]

def OBSERVABILITY_ALLOWED_TOOLS : List String :=
  ["query_dashboard_timeseries", "fetch_flow_metrics", "fetch_anomalies"]

def OBSERVABILITY_ALLOWED_TARGETS : List String :=
  ["hubble-l7-http-metrics-by-workload", "nvidia-dcgm-exporter-dashboard", "vllm-dashboard",
   "ai-serving/foundation-instruct-vllm", "fdtn-ai/Foundation-Sec-8B-Instruct", "default-cluster"]

def OBSERVABILITY_ALLOWED_METRICS : List String :=
  ["success_count_per_minute", "success_rate", "gpu_utilization", "policy_drop_flows",
   "anomaly_events"]

def OBSERVABILITY_ALLOWED_VIZ : List String := ["line", "network"]

/-- Source `isAllowedObservabilityCombo`. -/
def isAllowedObservabilityCombo (req : ObsRequest) : Bool :=
  if req.mcp = "grafana" then
    if req.tool ≠ "query_dashboard_timeseries" || req.viz ≠ "line" then false
    else if req.target = "vllm-dashboard" ∧ req.metric = "success_count_per_minute" then true
    else if req.target = "hubble-l7-http-metrics-by-workload" ∧ req.metric = "success_rate" then true
    else if req.target = "nvidia-dcgm-exporter-dashboard" ∧ req.metric = "gpu_utilization" then true
    else false
  else if req.mcp = "hubble" then
    req.tool = "fetch_flow_metrics" && req.viz = "network" &&
      req.target = "ai-serving/foundation-instruct-vllm" && req.metric = "policy_drop_flows"
  else
    req.mcp = "ndi" && req.tool = "fetch_anomalies" && req.viz = "network" &&
      req.target = "default-cluster" && req.metric = "anomaly_events"

/-- `Set.has(x as T) ? (x as T) : null` for one raw field: only a string
value equal to an allowed constant passes. -/
def jStrIn (v : Option JAny) (allowed : List String) : Option String :=
  match v with
  | some (JAny.jstr s) => if s ∈ allowed then some s else Option.none
  | _ => Option.none

/-- Field-wise validation of one raw request (the portion of the
`normalizeObservabilityPlan` loop before the combo check; `continue` on a
missing field becomes `Option.none`). -/
def parseObsRequest (r : JAny) : Option ObsRequest :=
  let title := match jGet r "title" with
    | some (JAny.jstr s) => if s.strTrim ≠ "" then s.strTrim else "Observability"
    | _ => "Observability"
  match jStrIn (jGet r "mcp") OBSERVABILITY_ALLOWED_MCPS,
        jStrIn (jGet r "tool") OBSERVABILITY_ALLOWED_TOOLS,
        jStrIn (jGet r "target") OBSERVABILITY_ALLOWED_TARGETS,
        jStrIn (jGet r "metric") OBSERVABILITY_ALLOWED_METRICS,
        jStrIn (jGet r "viz") OBSERVABILITY_ALLOWED_VIZ with
  | some mcp, some tool, some target, some metric, some viz =>
    some { mcp := mcp, tool := tool, target := target, metric := metric, viz := viz,
           title := title }
  | _, _, _, _, _ => Option.none

/-- The request-collection loop of `normalizeObservabilityPlan`: skip on
any invalid field, skip tuples outside the allow-list, keep the rest in
order. -/
def collectObsRequests : List JAny → List ObsRequest
  | [] => []
  | r :: rest =>
    match parseObsRequest r with
    | Option.none => collectObsRequests rest
    | some req =>
      if isAllowedObservabilityCombo req then req :: collectObsRequests rest
      else collectObsRequests rest

/-- The raw requests array of an observability plan object (`[]` when the
field is not an array). -/
def obsRequestsIn (raw : JAny) : List JAny :=
  match jGet raw "requests" with
  | some (JAny.jarr xs) => xs
  | _ => []

/-- Source `normalizeObservabilityPlan`. -/
def normalizeObservabilityPlan (raw : JAny) (userMsg : String) : ObsPlan :=
  let lang := detectLanguage userMsg
  let earliest_time := match jGet raw "earliest_time" with
    | some (JAny.jstr s) => if s ∈ OBSERVABILITY_ALLOWED_TIMES then s else "-15m"
    | _ => "-15m"
  { language := lang, earliest_time := earliest_time, latest_time := "now",
    requests := (collectObsRequests (obsRequestsIn raw)).take 3 }

/-- Source `detectObservabilityIntent`: keyword families tried in a fixed
priority order (anomaly, success-rate, gpu, success-count). -/
def detectObservabilityIntent (userMsg : String) : String :=
  let s := userMsg.strToLower
  if containsSub s "通信异常" || containsSub s "anomaly" || containsSub s "abnormal" ||
     containsSub s "drop" then "anomaly"
  else if containsSub s "成功率" || containsSub s "success rate" then "success_rate"
  else if containsSub s "gpu" then "gpu"
  else if containsSub s "成功次数" || containsSub s "success count" then "success_count"
  else "unknown"

/-- Source `buildObservabilityRequest`: the canonical request set for each
detected intent. -/
def buildObservabilityRequest (intent : String) (lang : String) : List ObsRequest :=
  if intent = "anomaly" then
    [{ mcp := "hubble", tool := "fetch_flow_metrics",
       target := "ai-serving/foundation-instruct-vllm", metric := "policy_drop_flows",
       viz := "network",
       title := if lang = "zh" then "通信异常拓扑" else "Communication anomaly topology" },
     { mcp := "ndi", tool := "fetch_anomalies", target := "default-cluster",
       metric := "anomaly_events", viz := "network",
       title := if lang = "zh" then "低层网络异常" else "Underlay anomalies" }]
  else if intent = "success_rate" then
    [{ mcp := "grafana", tool := "query_dashboard_timeseries",
       target := "hubble-l7-http-metrics-by-workload", metric := "success_rate", viz := "line",
       title := if lang = "zh" then "成功率趋势" else "Success rate trend" }]
  else if intent = "gpu" then
    [{ mcp := "grafana", tool := "query_dashboard_timeseries",
       target := "nvidia-dcgm-exporter-dashboard", metric := "gpu_utilization", viz := "line",
       title := if lang = "zh" then "GPU利用率趋势" else "GPU utilization trend" }]
  else
    [{ mcp := "grafana", tool := "query_dashboard_timeseries", target := "vllm-dashboard",
       metric := "success_count_per_minute", viz := "line",
       title := if lang = "zh" then "vLLM成功次数趋势" else "vLLM success count trend" }]

/-- Source `enforceObservabilityIntent`: if a known intent is detected the
requests are replaced wholesale by the canonical set. -/
def enforceObservabilityIntent (plan : ObsPlan) (userMsg : String) : ObsPlan :=
  let intent := detectObservabilityIntent userMsg
  if intent = "unknown" then plan
  else { plan with requests := buildObservabilityRequest intent plan.language }

/-- A normalized backend result row: field name to string value.  The
adapter's shape normalization is outside the claims; rows are abstracted
as already-flat string-valued records. -/
abbrev McpRow : Type := List (String × String)

/-- Chart datum after `normalizeChartData` (string/number cell values are
collapsed to their string form). -/
abbrev ChartDatum : Type := List (String × String)

/-- Table row after `normalizeTableRows`; `Option.none` models a
`null`/`undefined` cell for a missing column. -/
abbrev TableRow : Type := List (String × Option String)

/-- `row[key]` lookup. -/
def rowLookup (row : McpRow) (k : String) : Option String :=
  (row.find? (fun kv => kv.1 = k)).map (fun kv => kv.2)

/-- Source `normalizeChartData`; on string-valued rows the value coercion
is the identity. -/
def normalizeChartData (rows : List McpRow) : List ChartDatum := rows

/-- Source `normalizeTableRows`: project the fixed column list, keeping
absent cells as `Option.none`. -/
def normalizeTableRows (rows : List McpRow) (columns : List String) : List TableRow :=
  rows.map (fun row => columns.map (fun c => (c, rowLookup row c)))

/-- Network-graph node (`NetworkNode`). -/
structure NetNode where
  id : String
  label : String
  status : String
deriving DecidableEq, Repr

/-- Network-graph edge (`NetworkEdge`); `efrom`/`eto` stand for the source
fields `from`/`to` (keywords in Lean). -/
structure NetEdge where
  efrom : String
  eto : String
  label : Option String := Option.none
deriving DecidableEq, Repr

/-- Per-node marker (`NetworkAnnotation` in the source). -/
structure NetAnnot where
  nodeId : String
  label : String
deriving DecidableEq, Repr

/-- Optional row statistics. -/
structure NetStats where
  policy_drop : Option Int := Option.none
  anomalies : Option Int := Option.none
deriving DecidableEq, Repr

/-- Source `NetworkRow`. -/
structure NetworkRow where
  source : String
  nodes : List NetNode
  edges : List NetEdge
  annotations : Option (List NetAnnot) := Option.none
  stats : Option NetStats := Option.none
deriving DecidableEq, Repr

/-- Source `Panel` union.  The `bar` and `pie` variants share a shape and
are merged into `dist` with an explicit kind string.  `panel_id` is
modelled without the wall-clock component of `newPanelId`. -/
inductive Panel where
  | single (panel_id title spl label : String) (value : Int)
  | table (panel_id title spl : String) (columns : List String) (rows : List TableRow)
  | dist (kind panel_id title spl xKey yKey : String) (data : List ChartDatum)
      (drilldownType : String)
  | line (panel_id title spl xKey : String) (seriesKeys : List String) (data : List ChartDatum)
  | network (panel_id title : String) (rows : List NetworkRow)
deriving DecidableEq, Repr

/-- Source `newPanelId`, without the `Date.now()` timestamp component. -/
def newPanelId (pfx : String) (seq : Nat) : String :=
  pfx ++ "_" ++ toString seq

/-- The kind discriminator string of a panel. -/
def panelKind : Panel → String
  | Panel.single _ _ _ _ _ => "single"
  | Panel.table _ _ _ _ _ => "table"
  | Panel.dist k _ _ _ _ _ _ _ => k
  | Panel.line _ _ _ _ _ _ => "line"
  | Panel.network _ _ _ => "network"

/-- The title of a panel. -/
def panelTitle : Panel → String
  | Panel.single _ t _ _ _ => t
  | Panel.table _ t _ _ _ => t
  | Panel.dist _ _ t _ _ _ _ _ => t
  | Panel.line _ t _ _ _ _ => t
  | Panel.network _ t _ => t

/-- Sequential panel loop of source `runPanels`.  The backend call
`callSplunkMcp(spl, earliest, latest, row_limit)` is abstracted by the
oracle `mcp : query → row_limit → rows`; a scalar `value` cell that fails
integer parsing collapses to the same default 0 as a missing cell. -/
def runPanelsGo (plan : Plan) (mcp : String → Int → List McpRow) :
    List OutputSpec → Nat → List Panel
  | [], _ => []
  | out :: rest, seq =>
    if out.kind = "none" then runPanelsGo plan mcp rest seq
    else if out.template = "count" then
      let spl := splCount plan.filters
      let rows := mcp spl 5
      let v := match rows.head? with
        | some row => match rowLookup row "value" with
          | some s => (parseNumJS s).getD 0
          | Option.none => 0
        | Option.none => 0
      Panel.single (newPanelId "p_single" seq) out.title spl "count" v ::
        runPanelsGo plan mcp rest (seq + 1)
    else if out.template = "table" then
      let limit := clampInt out.limit 5 200 50
      let spl := splTable plan.filters limit
      let rows := mcp spl limit
      let columns := ["Time", "Severity", "Description", "Tags", "Details",
                      "Recent Network Activity", "Node: Pod/Container"]
      Panel.table (newPanelId "p_table" seq) out.title spl columns
          (normalizeTableRows rows columns) ::
        runPanelsGo plan mcp rest (seq + 1)
    else if out.template = "count_by" then
      let groupBy := match out.group_by with
        | some g => if g = "" then "Severity" else g
        | Option.none => "Severity"
      let limit := clampInt out.limit 3 50 10
      let spl := splCountBy plan.filters groupBy limit
      let data := normalizeChartData (mcp spl limit)
      let xd : String × String :=
        if groupBy = "node_pod_container" then ("node_pod_container", "node")
        else if groupBy = "recent_network_activity" then ("recent_network_activity", "net")
        else if groupBy = "tag" then ("tag", "tag")
        else ("Severity", "severity")
      let kind := if out.kind = "pie" then "pie" else "bar"
      Panel.dist kind (newPanelId "p_dist" seq) out.title spl xd.1 "count" data xd.2 ::
        runPanelsGo plan mcp rest (seq + 1)
    else if out.template = "trend" then
      let span := out.span.getD "5m"
      let split := if out.split = some "severity" then "severity" else "none"
      let spl := splTrend plan.filters span split
      let data := normalizeChartData (mcp spl 500)
      let seriesKeys := if split = "severity" then ["total", "critical", "warning", "info"]
                        else ["total"]
      Panel.line (newPanelId "p_trend" seq) out.title spl "time" seriesKeys data ::
        runPanelsGo plan mcp rest (seq + 1)
    else runPanelsGo plan mcp rest seq

/-- Source `runPanels`: panels pushed sequentially in output order. -/
def runPanels (plan : Plan) (mcp : String → Int → List McpRow) : List Panel :=
  runPanelsGo plan mcp plan.outputs 0

/-- Source `buildMinuteSeries`; the wall-clock minute labels are supplied
by the abstract `timeLabel` parameter (index within the series). -/
def buildMinuteSeries (values : List Int) (timeLabel : Nat → String) : List ChartDatum :=
  values.enum.map (fun iv => [("time", timeLabel iv.1), ("value", toString iv.2)])

/-- Source `mockGrafanaSeries`. -/
def mockGrafanaSeries (metric : String) (timeLabel : Nat → String) : List ChartDatum :=
  if metric = "success_rate" then
    buildMinuteSeries [100, 100, 98, 95, 92, 85, 75, 60, 45, 30, 20, 10, 5, 2, 0] timeLabel
  else if metric = "gpu_utilization" then
    buildMinuteSeries [42, 45, 48, 50, 55, 58, 60, 62, 64, 66, 68, 70, 72, 74, 76] timeLabel
  else
    buildMinuteSeries [5, 5, 5, 4, 4, 3, 3, 2, 2, 1, 1, 1, 0, 0, 0] timeLabel

/-- Source `mockHubbleRow`. -/
def mockHubbleRow : NetworkRow :=
  { source := "Hubble MCP (Overlay)",
    nodes := [{ id := "world", label := "World", status := "ok" },
              { id := "ai-serving/foundation-instruct-vllm",
                label := "ai-serving/foundation-instruct-vllm", status := "alert" }],
    edges := [{ efrom := "world", eto := "ai-serving/foundation-instruct-vllm",
                label := some "Policy Drop: 20" }],
    stats := some { policy_drop := some 20 } }

/-- The node list of `mockNdiRow`. -/
def mockNdiNodes : List NetNode :=
  [{ id := "world", label := "World", status := "ok" },
   { id := "router-03", label := "Router-03", status := "ok" },
   { id := "leaf-02", label := "Leaf-02", status := "ok" },
   { id := "spine-01", label := "Spine-01", status := "ok" },
   { id := "leaf-01", label := "Leaf-01", status := "ok" },
   { id := "loadbalancer-01", label := "Loadbalancer-01", status := "ok" },
   { id := "leaf01", label := "Leaf01", status := "ok" },
   { id := "spine-02", label := "Spine-02", status := "ok" },
   { id := "leaf-03", label := "Leaf-03", status := "ok" },
   { id := "csco-k8s-03", label := "csco-k8s-03", status := "ok" }]

/-- The chain-edge loop of `mockNdiRow` (`nodes[i] → nodes[i+1]`). -/
def chainEdges (nodes : List NetNode) : List NetEdge :=
  (nodes.zip nodes.tail).map (fun ab => { efrom := ab.1.id, eto := ab.2.id })

/-- Source `mockNdiRow`. -/
def mockNdiRow : NetworkRow :=
  { source := "NDI MCP (Underlay)", nodes := mockNdiNodes, edges := chainEdges mockNdiNodes,
    stats := some { anomalies := some 0 } }

/-- Title of the combined network panel. -/
def obsNetworkTitle (lang : String) : String :=
  if lang = "zh" then "通信异常（Overlay/Underlay）"
  else "Communication anomalies (Overlay/Underlay)"

/-- Loop of source `runObservabilityPanels`: line requests become line
panels immediately; network requests only append their mock row to an
accumulator, flushed as one combined network panel after the loop. -/
def runObsGo (plan : ObsPlan) (timeLabel : Nat → String) :
    List ObsRequest → Nat → List NetworkRow → List Panel
  | [], seq, acc =>
    if !acc.isEmpty then
      [Panel.network (newPanelId "p_net" seq) (obsNetworkTitle plan.language) acc]
    else []
  | req :: rest, seq, acc =>
    if req.viz = "line" then
      let data := mockGrafanaSeries req.metric timeLabel
      let spl := "MCP: Grafana (mock)\nDashboard: " ++ req.target ++ "\nMetric: " ++
                 req.metric ++ "\nRange: " ++ plan.earliest_time ++ " -> " ++ plan.latest_time
      Panel.line (newPanelId "p_trend" seq) req.title spl "time" ["value"] data ::
        runObsGo plan timeLabel rest (seq + 1) acc
    else if req.viz = "network" then
      let acc2 := if req.mcp = "hubble" then acc ++ [mockHubbleRow] else acc
      let acc3 := if req.mcp = "ndi" then acc2 ++ [mockNdiRow] else acc2
      runObsGo plan timeLabel rest seq acc3
    else runObsGo plan timeLabel rest seq acc

/-- Source `runObservabilityPanels`. -/
def runObservabilityPanels (plan : ObsPlan) (timeLabel : Nat → String) : List Panel :=
  runObsGo plan timeLabel plan.requests 0 []

/-- Network-row projection used inside an evidence item: node labels and
statuses, edge endpoints and labels, defaulted stats and annotations. -/
structure EvNetRow where
  source : String
  nodes : List (String × String)
  edges : List (String × String × Option String)
  stats : NetStats
  annotations : List NetAnnot
deriving DecidableEq, Repr

/-- Source evidence items (one per panel). -/
inductive Evidence where
  | single (title : String) (value : Int)
  | dist (kind title xKey yKey : String) (top : List ChartDatum)
  | line (title xKey : String) (seriesKeys : List String) (tail : List ChartDatum)
  | table (title : String) (columns : List String) (sample : List TableRow) (totalRows : Nat)
  | network (title : String) (rows : List EvNetRow)
deriving DecidableEq, Repr

/-- JavaScript `slice(-n)`: the last `n` elements. -/
def takeLast (n : Nat) (l : List α) : List α :=
  l.drop (l.length - n)

/-- The per-row projection of the network branch of
`buildEvidenceFromPanels`. -/
def projNetRow (row : NetworkRow) : EvNetRow :=
  { source := row.source,
    nodes := row.nodes.map (fun n => (n.label, n.status)),
    edges := row.edges.map (fun e => (e.efrom, e.eto, e.label)),
    stats := row.stats.getD {},
    annotations := row.annotations.getD [] }

/-- One iteration of the `buildEvidenceFromPanels` loop. -/
def evidenceOfPanel : Panel → Evidence
  | Panel.single _ title _ _ v => Evidence.single title v
  | Panel.dist kind _ title _ xKey yKey data _ =>
      Evidence.dist kind title xKey yKey (data.take 10)
  | Panel.line _ title _ xKey seriesKeys data =>
      Evidence.line title xKey seriesKeys (takeLast 12 data)
  | Panel.table _ title _ columns rows =>
      Evidence.table title columns (rows.take 6) rows.length
  | Panel.network _ title rows => Evidence.network title (rows.map projNetRow)

/-- Source `buildEvidenceFromPanels`: every panel kind is covered by the
if-chain, so the loop is a map. -/
def buildEvidenceFromPanels (panels : List Panel) : List Evidence :=
  panels.map evidenceOfPanel

theorem unescape_escQuote_escBackslash (l : List Char) :
    unescapeSplList (escQuote (escBackslash l)) = l := by
  induction l with
  | nil => rfl
  | cons c rest ih =>
    by_cases hb : c = '\\'
    · subst hb
      simp [escBackslash, escQuote, unescapeSplList, ih]
    · by_cases hq : c = '"'
      · subst hq
        simp [escBackslash, escQuote, unescapeSplList, ih]
      · simp [escBackslash, escQuote, hb, hq, unescapeSplList_cons_ne c _ hb, ih]

theorem unescapeSplString_escapeSplString (s : String) :
    unescapeSplString (escapeSplString s) = s := by
  cases s with
  | mk data => simp [escapeSplString, unescapeSplString, unescape_escQuote_escBackslash]

/-- Claim C6: the escaping applied before interpolation into a compiled
query doubles every backslash and then escapes every double quote
(`escapeSplString` is literally that composition), and it is invertible:
`unescapeSplString` recovers the original string for every input. -/
theorem C6_escape_roundtrip :
    (∀ s : String, escapeSplString s = String.mk (escQuote (escBackslash s.data))) ∧
    (∀ s : String, unescapeSplString (escapeSplString s) = s) :=
  ⟨fun _ => rfl, unescapeSplString_escapeSplString⟩

/-- A span value carrying SPL command syntax, used to exhibit the
unescaped interpolation in `splTrend`. -/
def injectedSpan : String := "5m\" | collect index=pwn"

/-- The raw model output proposing a trend output with the hostile span. -/
def injectedTrendRaw : JAny :=
  JAny.jobj [("outputs", JAny.jarr
    [JAny.jobj [("template", JAny.jstr "trend"), ("span", JAny.jstr injectedSpan)]])]

/-- The `spl` query string of a panel (absent for network panels). -/
def panelSpl : Panel → Option String
  | Panel.single _ _ spl _ _ => some spl
  | Panel.table _ _ spl _ _ => some spl
  | Panel.dist _ _ _ spl _ _ _ _ => some spl
  | Panel.line _ _ spl _ _ _ => some spl
  | Panel.network _ _ _ => Option.none

/-- Claim C1: refuted by the code — the model-controlled `span` of a trend
output survives normalization verbatim (merely trimmed), flows through the
full pipeline into `splTrend`, and is interpolated into the compiled
`timechart` command raw: the compiled query contains the hostile span
verbatim and does not contain its escaped form, contradicting the
invariant that only escaped substring filters and tag tokens reach the
query. -/
theorem C1_span_interpolated_unescaped :
    normalizeOutputs (jGet injectedTrendRaw "outputs") =
      [{ kind := "line", title := "Result", template := "trend",
         span := some injectedSpan, split := some "none" }] ∧
    (runPanels (ensureGuardrails (normalizePlan injectedTrendRaw "show trend") "show trend")
        (fun _ _ => [])).map panelSpl = [some (splTrend {} injectedSpan "none")] ∧
    containsSub (splTrend {} injectedSpan "none") injectedSpan = true ∧
    containsSub (splTrend {} injectedSpan "none") (escapeSplString injectedSpan) = false := by
  refine ⟨by decide, by decide, by decide, by decide⟩

/-- Claim C2: for every user message with no tag-intent keyword and no
extractable attack/NIST token, guardrails remove any model-proposed
`tags_exact` filter from the normalized plan. -/
theorem C2_no_intent_strips_tags (msg : String) (raw : JAny)
    (h1 : containsSub msg.strToLower "mitre" = false)
    (h2 : containsSub msg.strToLower "att&ck" = false)
    (h3 : containsSub msg.strToLower "nist" = false)
    (h4 : extractTagTokens msg = []) :
    (ensureGuardrails (normalizePlan raw msg) msg).filters.tags_exact = Option.none := by
  simp [ensureGuardrails, h4]

theorem C2_witness :
    containsSub ("list recent warning events").strToLower "mitre" = false ∧
    containsSub ("list recent warning events").strToLower "att&ck" = false ∧
    containsSub ("list recent warning events").strToLower "nist" = false ∧
    extractTagTokens "list recent warning events" = [] ∧
    (ensureGuardrails
        (normalizePlan
          (JAny.jobj [("filters", JAny.jobj
            [("tags_exact", JAny.jarr [JAny.jstr "attack.t1059"])])])
          "list recent warning events")
        "list recent warning events").filters.tags_exact = Option.none :=
  ⟨by decide, by decide, by decide, by decide,
   C2_no_intent_strips_tags "list recent warning events"
     (JAny.jobj [("filters", JAny.jobj [("tags_exact", JAny.jarr [JAny.jstr "attack.t1059"])])])
     (by decide) (by decide) (by decide) (by decide)⟩

/-- An observability plan with no requests, used as a concrete model
output. -/
def obsEmptyPlan : ObsPlan :=
  { language := "en", earliest_time := "-15m", latest_time := "now", requests := [] }

/-- The canonical GPU request tuple (English title). -/
def gpuCanonicalReq : ObsRequest :=
  { mcp := "grafana", tool := "query_dashboard_timeseries",
    target := "nvidia-dcgm-exporter-dashboard", metric := "gpu_utilization",
    viz := "line", title := "GPU utilization trend" }

/-- Claim C7 counterexample: the message `"gpu drop"` contains the
GPU-intent keyword, yet intent enforcement resolves the anomaly intent
(keyword `"drop"` has higher priority), so the resolved requests are not
the canonical GPU tuple. -/
theorem C7_counterexample :
    containsSub ("gpu drop").strToLower "gpu" = true ∧
    detectObservabilityIntent "gpu drop" = "anomaly" ∧
    (enforceObservabilityIntent obsEmptyPlan "gpu drop").requests ≠ [gpuCanonicalReq] := by
  refine ⟨by decide, by decide, by decide⟩

/-- Claim C7 (amended): for every user message that contains `"gpu"` and
none of the higher-priority anomaly or success-rate keywords, intent
enforcement replaces the requests of every model-produced plan with
exactly the canonical GPU request tuple. -/
theorem C7_gpu_intent_enforced (plan : ObsPlan) (msg : String)
    (hgpu : containsSub msg.strToLower "gpu" = true)
    (h1 : containsSub msg.strToLower "通信异常" = false)
    (h2 : containsSub msg.strToLower "anomaly" = false)
    (h3 : containsSub msg.strToLower "abnormal" = false)
    (h4 : containsSub msg.strToLower "drop" = false)
    (h5 : containsSub msg.strToLower "成功率" = false)
    (h6 : containsSub msg.strToLower "success rate" = false) :
    (enforceObservabilityIntent plan msg).requests =
      [{ mcp := "grafana", tool := "query_dashboard_timeseries",
         target := "nvidia-dcgm-exporter-dashboard", metric := "gpu_utilization",
         viz := "line",
         title := if plan.language = "zh" then "GPU利用率趋势" else "GPU utilization trend" }] := by
  have hint : detectObservabilityIntent msg = "gpu" := by
    simp [detectObservabilityIntent, h1, h2, h3, h4, h5, h6, hgpu]
  simp [enforceObservabilityIntent, hint, buildObservabilityRequest]

theorem C7_witness :
    containsSub ("gpu").strToLower "gpu" = true ∧
    (enforceObservabilityIntent obsEmptyPlan "gpu").requests =
      [{ mcp := "grafana", tool := "query_dashboard_timeseries",
         target := "nvidia-dcgm-exporter-dashboard", metric := "gpu_utilization",
         viz := "line",
         title := if obsEmptyPlan.language = "zh" then "GPU利用率趋势"
                  else "GPU utilization trend" }] :=
  ⟨by decide,
   C7_gpu_intent_enforced obsEmptyPlan "gpu" (by decide) (by decide) (by decide) (by decide)
     (by decide) (by decide) (by decide)⟩

theorem collectObsRequests_eq_filter (l : List JAny) :
    collectObsRequests l =
      (l.filterMap parseObsRequest).filter isAllowedObservabilityCombo := by
  induction l with
  | nil => rfl
  | cons r rest ih =>
    cases hp : parseObsRequest r with
    | none => simp [collectObsRequests, hp, ih]
    | some req =>
      cases hc : isAllowedObservabilityCombo req <;>
        simp [collectObsRequests, hp, hc, ih]

/-- A raw observability request JSON object for the allowed
grafana/vllm-dashboard tuple. -/
def validObsRawReq : JAny :=
  JAny.jobj [("mcp", JAny.jstr "grafana"), ("tool", JAny.jstr "query_dashboard_timeseries"),
             ("target", JAny.jstr "vllm-dashboard"),
             ("metric", JAny.jstr "success_count_per_minute"),
             ("viz", JAny.jstr "line"), ("title", JAny.jstr "vLLM")]

/-- A raw observability request whose fields are individually allowed but
whose combination is not in the allow-list (grafana with the anomaly
fetch tool). -/
def invalidObsRawReq : JAny :=
  JAny.jobj [("mcp", JAny.jstr "grafana"), ("tool", JAny.jstr "fetch_anomalies"),
             ("target", JAny.jstr "vllm-dashboard"),
             ("metric", JAny.jstr "success_count_per_minute"),
             ("viz", JAny.jstr "line"), ("title", JAny.jstr "bad")]

/-- A raw observability plan carrying one valid and one invalid tuple. -/
def mixedObsRaw : JAny :=
  JAny.jobj [("requests", JAny.jarr [invalidObsRawReq, validObsRawReq])]

/-- Claim C3: observability normalization keeps exactly the field-valid
request tuples whose combination is in the allow-list (dropping, not
repairing, the rest), truncated to at most three; a raw plan with one
valid and one invalid tuple normalizes to exactly the valid request. -/
theorem C3_obs_allowlist :
    (∀ (raw : JAny) (msg : String),
        (normalizeObservabilityPlan raw msg).requests =
          (((obsRequestsIn raw).filterMap parseObsRequest).filter
            isAllowedObservabilityCombo).take 3 ∧
        (normalizeObservabilityPlan raw msg).requests.length ≤ 3 ∧
        ∀ req ∈ (normalizeObservabilityPlan raw msg).requests,
          isAllowedObservabilityCombo req = true) ∧
    (normalizeObservabilityPlan mixedObsRaw "hi").requests =
      [{ mcp := "grafana", tool := "query_dashboard_timeseries", target := "vllm-dashboard",
         metric := "success_count_per_minute", viz := "line", title := "vLLM" }] := by
  constructor
  · intro raw msg
    refine ⟨by simp [normalizeObservabilityPlan, collectObsRequests_eq_filter], ?_, ?_⟩
    · simp [normalizeObservabilityPlan, List.length_take]
    · intro req hreq
      simp only [normalizeObservabilityPlan, collectObsRequests_eq_filter] at hreq
      have := List.take_subset 3 _ hreq
      exact (List.mem_filter.mp this).2
  · decide

theorem C3_witness :
    isAllowedObservabilityCombo
      { mcp := "grafana", tool := "query_dashboard_timeseries", target := "vllm-dashboard",
        metric := "success_count_per_minute", viz := "line", title := "vLLM" } = true :=
  (C3_obs_allowlist.1 mixedObsRaw "hi").2.2
    { mcp := "grafana", tool := "query_dashboard_timeseries", target := "vllm-dashboard",
      metric := "success_count_per_minute", viz := "line", title := "vLLM" }
    (by decide)

theorem coerceKind_mem (v : String) : coerceKind v ∈ allowedKindList := by
  unfold coerceKind
  split
  · assumption
  · simp [allowedKindList]

theorem coerceTemplate_mem (v : String) : coerceTemplate v ∈ allowedTemplateList := by
  unfold coerceTemplate
  split
  · assumption
  · simp [allowedTemplateList]

theorem coerceGroupBy_mem (v : String) : coerceGroupBy v ∈ allowedGroupList := by
  unfold coerceGroupBy
  split
  · assumption
  · simp [allowedGroupList]

theorem coerceSplit_mem (v : String) : coerceSplit v ∈ allowedSplitList := by
  unfold coerceSplit
  split
  · assumption
  · simp [allowedSplitList]

theorem clampInt_bounds (n : Option Int) (lo hi dflt : Int)
    (h1 : lo ≤ hi) (h2 : lo ≤ dflt) (h3 : dflt ≤ hi) :
    lo ≤ clampInt n lo hi dflt ∧ clampInt n lo hi dflt ≤ hi := by
  cases n <;> simp [clampInt] <;> omega

/-- Well-formedness of a normalized output spec: every enumeration field
is in its domain and every limit is inside its documented range. -/
def OutputSpecWF (spec : OutputSpec) : Prop :=
  spec.template ∈ allowedTemplateList ∧
  spec.kind ∈ ["single", "table", "bar", "pie", "line"] ∧
  (spec.template = "count_by" →
    (∃ g ∈ allowedGroupList, spec.group_by = some g) ∧
    (∃ n, spec.limit = some n ∧ 3 ≤ n ∧ n ≤ 50)) ∧
  (spec.template = "table" → ∃ n, spec.limit = some n ∧ 5 ≤ n ∧ n ≤ 200) ∧
  (spec.template = "trend" →
    (∃ sp, spec.span = some sp) ∧ (∃ x ∈ allowedSplitList, spec.split = some x))

theorem normalizeOutputSpec_wf (o : JAny) : OutputSpecWF (normalizeOutputSpec o) := by
  have ht := coerceTemplate_mem (jFieldStr o "template")
  have hk := coerceKind_mem (jFieldStr o "kind")
  unfold normalizeOutputSpec
  dsimp only
  split_ifs with h1 hbp h2 h3
  · rw [h1]
    unfold OutputSpecWF
    dsimp only
    refine ⟨by simp [allowedTemplateList], by simp, ?_, fun h => by simp at h,
            fun h => by simp at h⟩
    intro _
    exact ⟨⟨coerceGroupBy (jFieldStr o "group_by"), coerceGroupBy_mem _, rfl⟩,
      _, rfl, (clampInt_bounds (jToNumOpt (jGet o "limit")) 3 50 10
          (by omega) (by omega) (by omega)).1,
        (clampInt_bounds (jToNumOpt (jGet o "limit")) 3 50 10
          (by omega) (by omega) (by omega)).2⟩
  · have hk2 : coerceKind (jFieldStr o "kind") = "bar" ∨
        coerceKind (jFieldStr o "kind") = "pie" := by
      rcases not_and_or.mp hbp with hb | hp
      · exact Or.inl (not_not.mp hb)
      · exact Or.inr (not_not.mp hp)
    rw [h1]
    unfold OutputSpecWF
    dsimp only
    refine ⟨by simp [allowedTemplateList], ?_, ?_, fun h => by simp at h,
            fun h => by simp at h⟩
    · rcases hk2 with h | h <;> simp [h]
    · intro _
      exact ⟨⟨coerceGroupBy (jFieldStr o "group_by"), coerceGroupBy_mem _, rfl⟩,
        _, rfl, (clampInt_bounds (jToNumOpt (jGet o "limit")) 3 50 10
            (by omega) (by omega) (by omega)).1,
          (clampInt_bounds (jToNumOpt (jGet o "limit")) 3 50 10
            (by omega) (by omega) (by omega)).2⟩
  · rw [h2]
    unfold OutputSpecWF
    dsimp only
    refine ⟨by simp [allowedTemplateList], by simp, fun h => by simp at h,
            fun h => by simp at h, ?_⟩
    intro _
    exact ⟨⟨_, rfl⟩, coerceSplit (jFieldStr o "split"), coerceSplit_mem _, rfl⟩
  · rw [h3]
    unfold OutputSpecWF
    dsimp only
    exact ⟨by simp [allowedTemplateList], by simp, fun h => by simp at h,
           fun h => by simp at h, fun h => by simp at h⟩
  · have h4 : coerceTemplate (jFieldStr o "template") = "table" := by
      simp only [allowedTemplateList, List.mem_cons, List.not_mem_nil, or_false] at ht
      rcases ht with h | h | h | h
      · exact absurd h h3
      · exact h
      · exact absurd h h1
      · exact absurd h h2
    rw [h4]
    unfold OutputSpecWF
    dsimp only
    refine ⟨by simp [allowedTemplateList], by simp, fun h => by simp at h, ?_,
            fun h => by simp at h⟩
    intro _
    exact ⟨_, rfl, (clampInt_bounds (jToNumOpt (jGet o "limit")) 5 200 50
        (by omega) (by omega) (by omega)).1,
      (clampInt_bounds (jToNumOpt (jGet o "limit")) 5 200 50
        (by omega) (by omega) (by omega)).2⟩

/-- Claim C4: output normalization is total (every raw candidate list
yields a fully defaulted, in-range spec list — in Lean the function is
total by construction), coercing each out-of-domain enumeration value to
its documented default (kind→"none", template→"table",
group_by→"Severity", split→"none") and clamping the `count_by` limit into
`[3,50]` (default 10) and the `table` limit into `[5,200]` (default 50);
concretely, `count_by` limit 0 → 3, `count_by` limit 9999 → 50 and a
non-numeric `table` limit → 50. -/
theorem C4_normalize_outputs_defaults :
    (∀ (raw : Option JAny), ∀ spec ∈ normalizeOutputs raw, OutputSpecWF spec) ∧
    (∀ v, v ∉ allowedKindList → coerceKind v = "none") ∧
    (∀ v, v ∉ allowedTemplateList → coerceTemplate v = "table") ∧
    (∀ v, v ∉ allowedGroupList → coerceGroupBy v = "Severity") ∧
    (∀ v, v ∉ allowedSplitList → coerceSplit v = "none") ∧
    ((normalizeOutputs (some (JAny.jarr
        [JAny.jobj [("template", JAny.jstr "count_by"), ("limit", JAny.jnum 0)]]))).map
          OutputSpec.limit = [some 3]) ∧
    ((normalizeOutputs (some (JAny.jarr
        [JAny.jobj [("template", JAny.jstr "count_by"), ("limit", JAny.jnum 9999)]]))).map
          OutputSpec.limit = [some 50]) ∧
    ((normalizeOutputs (some (JAny.jarr
        [JAny.jobj [("template", JAny.jstr "table"), ("limit", JAny.jstr "abc")]]))).map
          OutputSpec.limit = [some 50]) := by
  refine ⟨?_, ?_, ?_, ?_, ?_, by decide, by decide, by decide⟩
  · intro raw spec hmem
    rcases raw with _ | v
    · simp [normalizeOutputs] at hmem
    · rcases v with _ | _ | _ | _ | xs | _ <;> simp [normalizeOutputs] at hmem
      obtain ⟨o, _, rfl⟩ := hmem
      exact normalizeOutputSpec_wf o
  · intro v hv
    simp [coerceKind, hv]
  · intro v hv
    simp [coerceTemplate, hv]
  · intro v hv
    simp [coerceGroupBy, hv]
  · intro v hv
    simp [coerceSplit, hv]

theorem C4_witness :
    OutputSpecWF { kind := "bar", title := "Result", template := "count_by",
                   group_by := some "Severity", limit := some 3,
                   span := Option.none, split := Option.none } :=
  C4_normalize_outputs_defaults.1
    (some (JAny.jarr [JAny.jobj [("template", JAny.jstr "count_by"), ("limit", JAny.jnum 0)]]))
    { kind := "bar", title := "Result", template := "count_by",
      group_by := some "Severity", limit := some 3,
      span := Option.none, split := Option.none }
    (by decide)

theorem normalizeOutputs_kind_ne_none (raw : Option JAny) :
    ∀ o ∈ normalizeOutputs raw, o.kind ≠ "none" := by
  intro o ho
  have hwf : OutputSpecWF o := by
    rcases raw with _ | v
    · simp [normalizeOutputs] at ho
    · rcases v with _ | _ | _ | _ | xs | _ <;> simp [normalizeOutputs] at ho
      obtain ⟨x, _, rfl⟩ := ho
      exact normalizeOutputSpec_wf x
  intro hnone
  have := hwf.2.1
  rw [hnone] at this
  simp at this

theorem ensureGuardrails_outputs_facts (p : Plan) (msg : String)
    (hall : ∀ o ∈ p.outputs, o.kind ≠ "none") :
    1 ≤ (ensureGuardrails p msg).outputs.length ∧
    (ensureGuardrails p msg).outputs.length ≤ 4 ∧
    ∃ o ∈ (ensureGuardrails p msg).outputs, o.kind ≠ "none" := by
  unfold ensureGuardrails
  dsimp only
  set outs0 := if p.outputs.isEmpty then [defaultEventsTable] else p.outputs with h0
  have hall0 : ∀ o ∈ outs0, o.kind ≠ "none" := by
    intro o ho
    rw [h0] at ho
    by_cases he : p.outputs.isEmpty
    · simp [he] at ho
      rw [ho]
      simp [defaultEventsTable]
    · rw [if_neg he] at ho
      exact hall o ho
  have hne0 : outs0 ≠ [] := by
    rw [h0]
    by_cases he : p.outputs.isEmpty
    · simp [he]
    · rw [if_neg he]
      simpa [List.isEmpty_iff] using he
  obtain ⟨a, l, ha⟩ := List.exists_cons_of_ne_nil hne0
  have hany : outs0.any (fun o => o.kind ≠ "none") = true := by
    rw [List.any_eq_true]
    exact ⟨a, by rw [ha]; exact List.mem_cons_self a l,
           by simpa using hall0 a (by rw [ha]; exact List.mem_cons_self a l)⟩
  rw [if_pos hany]
  refine ⟨?_, ?_, ?_⟩
  · rw [ha]
    simp [List.length_take]
  · simp [List.length_take]
  · refine ⟨a, ?_, hall0 a (by rw [ha]; exact List.mem_cons_self a l)⟩
    rw [ha]
    simp

/-- Claim C5: for every raw candidate plan and user message, after
guardrails the outputs list has between 1 and 4 entries and contains an
output whose kind is not `"none"`; and whenever a plan's outputs are
empty or all suppressed, guardrails synthesize exactly the default table
output. -/
theorem C5_guardrails_output_invariants :
    (∀ (raw : JAny) (msg : String),
        1 ≤ (ensureGuardrails (normalizePlan raw msg) msg).outputs.length ∧
        (ensureGuardrails (normalizePlan raw msg) msg).outputs.length ≤ 4 ∧
        ∃ o ∈ (ensureGuardrails (normalizePlan raw msg) msg).outputs, o.kind ≠ "none") ∧
    (∀ (p : Plan) (msg : String),
        (p.outputs = [] ∨ ∀ o ∈ p.outputs, o.kind = "none") →
        (ensureGuardrails p msg).outputs = [defaultEventsTable]) := by
  constructor
  · intro raw msg
    exact ensureGuardrails_outputs_facts (normalizePlan raw msg) msg
      (normalizeOutputs_kind_ne_none (jGet raw "outputs"))
  · intro p msg h
    unfold ensureGuardrails
    dsimp only
    rcases h with he | hall
    · rw [he]
      simp [defaultEventsTable]
    · by_cases he : p.outputs.isEmpty
      · rw [if_pos he]
        simp [defaultEventsTable]
      · rw [if_neg he]
        have hanyf : p.outputs.any (fun o => o.kind ≠ "none") = false := by
          rw [List.any_eq_false]
          intro o ho
          simpa using hall o ho
        rw [hanyf]
        simp

theorem C5_witness :
    (ensureGuardrails
        (normalizePlan (JAny.jobj []) "show events") "show events").outputs =
      [defaultEventsTable] :=
  C5_guardrails_output_invariants.2 (normalizePlan (JAny.jobj []) "show events")
    "show events" (Or.inl (by decide))

theorem charToNat_ofNat (n : Nat) (h : n.isValidChar) : (Char.ofNat n).toNat = n := by
  simp only [Char.ofNat, dif_pos h, Char.ofNatAux, Char.toNat]
  simp [UInt32.toNat, BitVec.toNat_ofNatLt]

theorem char_toLower_idem (c : Char) : c.toLower.toLower = c.toLower := by
  unfold Char.toLower
  dsimp only
  split_ifs with h1 h2
  · exfalso
    have hv : Nat.isValidChar (c.toNat + 32) := Or.inl (by omega)
    rw [charToNat_ofNat _ hv] at h2
    omega
  · rfl
  · rfl

theorem strToLower_idem (s : String) : s.strToLower.strToLower = s.strToLower := by
  unfold String.strToLower
  simp [List.map_map, Function.comp_def, char_toLower_idem]

theorem addUnique_nodup (acc : List String) (x : String) (h : acc.Nodup) :
    (addUnique acc x).Nodup := by
  unfold addUnique
  split_ifs with hx
  · exact h
  · simpa [List.nodup_append] using ⟨h, hx⟩

theorem mem_addUnique (acc : List String) (x y : String) (h : y ∈ addUnique acc x) :
    y ∈ acc ∨ y = x := by
  unfold addUnique at h
  split_ifs at h with hx
  · exact Or.inl h
  · simpa using h

theorem foldl_addUnique_nodup (l acc : List String) (h : acc.Nodup) :
    (l.foldl addUnique acc).Nodup := by
  induction l generalizing acc with
  | nil => exact h
  | cons x rest ih => exact ih (addUnique acc x) (addUnique_nodup acc x h)

theorem mem_foldl_addUnique (l acc : List String) (y : String)
    (h : y ∈ l.foldl addUnique acc) : y ∈ acc ∨ y ∈ l := by
  induction l generalizing acc with
  | nil => exact Or.inl h
  | cons x rest ih =>
    rcases ih (addUnique acc x) h with h1 | h1
    · rcases mem_addUnique acc x y h1 with h2 | h2
      · exact Or.inl h2
      · exact Or.inr (by simp [h2])
    · exact Or.inr (List.mem_cons_of_mem x h1)

theorem extractTagTokens_nodup (msg : String) : (extractTagTokens msg).Nodup :=
  foldl_addUnique_nodup _ [] List.nodup_nil

theorem extractTagTokens_lower (msg : String) :
    ∀ t ∈ extractTagTokens msg, t.strToLower = t := by
  intro t ht
  rcases mem_foldl_addUnique _ [] t ht with h | h
  · simp at h
  · rcases List.mem_append.mp h with h1 | h1
    · obtain ⟨u, _, rfl⟩ := List.mem_map.mp h1
      exact strToLower_idem u
    · obtain ⟨u, _, rfl⟩ := List.mem_map.mp h1
      exact strToLower_idem u

theorem ensureGuardrails_tags (p : Plan) (msg : String) :
    (ensureGuardrails p msg).filters.tags_exact =
      if userExplicitTagIntent msg = true ∧ extractTagTokens msg ≠ []
      then some (extractTagTokens msg) else Option.none := by
  unfold ensureGuardrails
  dsimp only
  by_cases hu : userExplicitTagIntent msg
  · by_cases htok : extractTagTokens msg = [] <;>
      simp [hu, htok, List.isEmpty_iff]
  · simp [hu, Bool.eq_false_iff.mpr hu]

/-- A plan with empty filters and no outputs, used as a neutral concrete
input. -/
def emptyPlan : Plan :=
  { language := "en", earliest_time := "-15m", latest_time := "now",
    filters := {}, outputs := [] }

/-- Claim C10: the post-guardrail tag filter is a function of the user
message alone — identical across any two candidate plans — and when
present it equals exactly the deduplicated, lowercased tokens the
tag-extraction regexes find in the message; a message with an intent
keyword but no extractable token yields no tag filter. -/
theorem C10_tags_depend_only_on_message :
    (∀ (msg : String) (p1 p2 : Plan),
        (ensureGuardrails p1 msg).filters.tags_exact =
          (ensureGuardrails p2 msg).filters.tags_exact) ∧
    (∀ (msg : String) (p : Plan),
        (ensureGuardrails p msg).filters.tags_exact =
          if userExplicitTagIntent msg = true ∧ extractTagTokens msg ≠ []
          then some (extractTagTokens msg) else Option.none) ∧
    (∀ (msg : String) (p : Plan) (ts : List String),
        (ensureGuardrails p msg).filters.tags_exact = some ts →
        ts = extractTagTokens msg ∧ ts.Nodup ∧ ∀ t ∈ ts, t.strToLower = t) ∧
    (∀ p : Plan,
        (ensureGuardrails p "give me the mitre view").filters.tags_exact = Option.none) := by
  refine ⟨?_, ?_, ?_, ?_⟩
  · intro msg p1 p2
    rw [ensureGuardrails_tags, ensureGuardrails_tags]
  · intro msg p
    exact ensureGuardrails_tags p msg
  · intro msg p ts h
    rw [ensureGuardrails_tags] at h
    by_cases hc : userExplicitTagIntent msg = true ∧ extractTagTokens msg ≠ []
    · rw [if_pos hc] at h
      obtain rfl : extractTagTokens msg = ts := Option.some.inj h
      exact ⟨rfl, extractTagTokens_nodup msg, extractTagTokens_lower msg⟩
    · rw [if_neg hc] at h
      exact absurd h (by simp)
  · intro p
    rw [ensureGuardrails_tags]
    have h : extractTagTokens "give me the mitre view" = [] := by decide
    simp [h]

theorem C10_witness :
    (["attack.t1059"] : List String) = extractTagTokens "tag attack.t1059 events" ∧
    (["attack.t1059"] : List String).Nodup ∧
    ∀ t ∈ (["attack.t1059"] : List String), t.strToLower = t :=
  C10_tags_depend_only_on_message.2.2.1 "tag attack.t1059 events" emptyPlan
    ["attack.t1059"] (by decide)

/-- Number of projected rows inside a network evidence item. -/
def evNetRowCount : Evidence → Option Nat
  | Evidence.network _ rows => some rows.length
  | _ => Option.none

/-- Claim C9 counterexample: the evidence item built for a network panel
keeps every row of the panel — a 13-row network panel produces a 13-row
evidence item, exceeding each documented per-panel cap (10, 12, 6), so no
fixed cap holds for the network variant. -/
theorem C9_counterexample :
    (buildEvidenceFromPanels
        [Panel.network "p_net_0" "Topology" (List.replicate 13 mockHubbleRow)]).map
      evNetRowCount = [some 13] := by decide

/-- Claim C9 (amended): evidence items are capped per panel for the
sliced variants — at most the top 10 rows of a bar/pie distribution, the
last 12 points of a line trend and 6 sample rows of a table, for panels
of any size — while the evidence item of a network panel contains all of
the panel's rows (it is bounded in practice only because materialization
produces at most one small network row per network request). -/
theorem C9_evidence_bounds :
    (∀ (panels : List Panel), ∀ e ∈ buildEvidenceFromPanels panels,
       (∀ k t x y top, e = Evidence.dist k t x y top → top.length ≤ 10) ∧
       (∀ t x sk tail, e = Evidence.line t x sk tail → tail.length ≤ 12) ∧
       (∀ t cols sample n, e = Evidence.table t cols sample n → sample.length ≤ 6)) ∧
    (∀ (pid t : String) (rows : List NetworkRow),
        buildEvidenceFromPanels [Panel.network pid t rows] =
          [Evidence.network t (rows.map projNetRow)]) := by
  constructor
  · intro panels e he
    obtain ⟨p, hp, rfl⟩ := List.mem_map.mp he
    refine ⟨?_, ?_, ?_⟩
    · intro k t x y top h
      cases p <;> simp [evidenceOfPanel] at h
      obtain ⟨-, -, -, -, htop⟩ := h
      subst htop
      rw [List.length_take]
      omega
    · intro t x sk tail h
      cases p <;> simp [evidenceOfPanel] at h
      obtain ⟨-, -, -, htail⟩ := h
      subst htail
      simp only [takeLast, List.length_drop]
      omega
    · intro t cols sample n h
      cases p <;> simp [evidenceOfPanel] at h
      obtain ⟨-, -, hsample, -⟩ := h
      subst hsample
      rw [List.length_take]
      omega
  · intro pid t rows
    rfl

/-- A 20-point line panel used to exercise the trend evidence cap. -/
def linePanel20 : Panel :=
  Panel.line "p_trend_0" "Trend" "q" "time" ["total"] (List.replicate 20 [])

theorem C9_witness :
    (List.replicate 12 ([] : ChartDatum)).length ≤ 12 :=
  (C9_evidence_bounds.1 [linePanel20] (evidenceOfPanel linePanel20) (by decide)).2.1
    "Trend" "time" ["total"] (List.replicate 12 []) (by decide)

/-- The allowed hubble network request (Overlay). -/
def hubbleNetReq : ObsRequest :=
  { mcp := "hubble", tool := "fetch_flow_metrics",
    target := "ai-serving/foundation-instruct-vllm", metric := "policy_drop_flows",
    viz := "network", title := "Overlay" }

/-- The allowed grafana vllm-dashboard line request. -/
def vllmLineReq : ObsRequest :=
  { mcp := "grafana", tool := "query_dashboard_timeseries", target := "vllm-dashboard",
    metric := "success_count_per_minute", viz := "line", title := "vLLM" }

/-- An observability plan declaring a network request before a line
request (both allow-listed). -/
def mixedObsPlan : ObsPlan :=
  { language := "en", earliest_time := "-15m", latest_time := "now",
    requests := [hubbleNetReq, vllmLineReq] }

/-- Claim C8 counterexample: for an observability plan whose first request
is a network request and whose second is a line request, the first
emitted panel is the line panel for the second request and the network
panel comes last — the i-th panel does not correspond to the i-th
request. -/
theorem C8_counterexample :
    mixedObsPlan.requests.map (fun r => r.viz) = ["network", "line"] ∧
    (runObservabilityPanels mixedObsPlan (fun _ => "")).map panelKind =
      ["line", "network"] ∧
    (runObservabilityPanels mixedObsPlan (fun _ => "")).map panelTitle =
      ["vLLM", "Communication anomalies (Overlay/Underlay)"] := by
  refine ⟨by decide, by decide, by decide⟩

/-- A security output is active when it is not suppressed and carries one
of the four templates (after normalization this is every output). -/
def activeOutput (o : OutputSpec) : Bool :=
  o.kind != "none" && (o.template == "count" || o.template == "table" ||
    o.template == "count_by" || o.template == "trend")

/-- The (title, panel kind) pair the querying stage materializes for one
security output. -/
def outputPanelShape (o : OutputSpec) : String × String :=
  (o.title,
   if o.template = "count" then "single"
   else if o.template = "table" then "table"
   else if o.template = "count_by" then (if o.kind = "pie" then "pie" else "bar")
   else "line")

/-- Whether an observability request contributes a row to the combined
network panel. -/
def obsContributesNet (r : ObsRequest) : Bool :=
  r.viz == "network" && (r.mcp == "hubble" || r.mcp == "ndi")

theorem runPanelsGo_shape (plan : Plan) (mcp : String → Int → List McpRow)
    (outs : List OutputSpec) (seq : Nat) :
    (runPanelsGo plan mcp outs seq).map (fun p => (panelTitle p, panelKind p)) =
      (outs.filter activeOutput).map outputPanelShape := by
  induction outs generalizing seq with
  | nil => rfl
  | cons out rest ih =>
    by_cases h0 : out.kind = "none"
    · unfold runPanelsGo
      rw [if_pos h0, ih seq, List.filter_cons_of_neg (by simp [activeOutput, h0])]
    · by_cases h1 : out.template = "count"
      · unfold runPanelsGo
        rw [if_neg h0, if_pos h1]
        dsimp only
        rw [List.map_cons, ih (seq + 1),
            List.filter_cons_of_pos (by simp [activeOutput, h0, h1]), List.map_cons]
        simp [panelTitle, panelKind, outputPanelShape, h1]
      · by_cases h2 : out.template = "table"
        · unfold runPanelsGo
          rw [if_neg h0, if_neg h1, if_pos h2]
          dsimp only
          rw [List.map_cons, ih (seq + 1),
              List.filter_cons_of_pos (by simp [activeOutput, h0, h2]), List.map_cons]
          simp [panelTitle, panelKind, outputPanelShape, h1, h2]
        · by_cases h3 : out.template = "count_by"
          · unfold runPanelsGo
            rw [if_neg h0, if_neg h1, if_neg h2, if_pos h3]
            dsimp only
            rw [List.map_cons, ih (seq + 1),
                List.filter_cons_of_pos (by simp [activeOutput, h0, h3]), List.map_cons]
            simp [panelTitle, panelKind, outputPanelShape, h1, h2, h3]
          · by_cases h4 : out.template = "trend"
            · unfold runPanelsGo
              rw [if_neg h0, if_neg h1, if_neg h2, if_neg h3, if_pos h4]
              dsimp only
              rw [List.map_cons, ih (seq + 1),
                  List.filter_cons_of_pos (by simp [activeOutput, h0, h4]), List.map_cons]
              simp [panelTitle, panelKind, outputPanelShape, h1, h2, h3]
            · unfold runPanelsGo
              rw [if_neg h0, if_neg h1, if_neg h2, if_neg h3, if_neg h4, ih seq,
                  List.filter_cons_of_neg (by simp [activeOutput, h1, h2, h3, h4])]

theorem runObsGo_shape (plan : ObsPlan) (tl : Nat → String)
    (l : List ObsRequest) (seq : Nat) (acc : List NetworkRow) :
    (runObsGo plan tl l seq acc).map (fun p => (panelTitle p, panelKind p)) =
      ((l.filter (fun r => r.viz == "line")).map (fun r => (r.title, "line"))) ++
      (if !acc.isEmpty || l.any obsContributesNet
       then [(obsNetworkTitle plan.language, "network")] else []) := by
  induction l generalizing seq acc with
  | nil =>
    by_cases ha : acc.isEmpty <;>
      simp [runObsGo, ha, panelTitle, panelKind]
  | cons r rest ih =>
    by_cases hline : r.viz = "line"
    · unfold runObsGo
      rw [if_pos hline]
      dsimp only
      rw [List.map_cons, ih (seq + 1) acc,
          List.filter_cons_of_pos (by simp [hline]), List.map_cons]
      have hnetf : obsContributesNet r = false := by
        simp [obsContributesNet, hline]
      simp [panelTitle, panelKind, hnetf]
    · by_cases hnet : r.viz = "network"
      · unfold runObsGo
        rw [if_neg hline, if_pos hnet]
        dsimp only
        have hr : obsContributesNet r = (r.mcp == "hubble" || r.mcp == "ndi") := by
          simp [obsContributesNet, hnet]
        by_cases hh : r.mcp = "hubble"
        · have hn : ¬ r.mcp = "ndi" := by rw [hh]; decide
          rw [if_pos hh, if_neg hn, ih seq (acc ++ [mockHubbleRow]),
              List.filter_cons_of_neg (by simp [hline])]
          simp [hr, hh]
        · by_cases hn : r.mcp = "ndi"
          · rw [if_neg hh, if_pos hn]
            rw [ih seq (acc ++ [mockNdiRow]),
                List.filter_cons_of_neg (by simp [hline])]
            simp [hr, hn]
          · rw [if_neg hh, if_neg hn, ih seq acc,
                List.filter_cons_of_neg (by simp [hline])]
            simp [hr, hh, hn]
      · unfold runObsGo
        rw [if_neg hline, if_neg hnet, ih seq acc,
            List.filter_cons_of_neg (by simp [hline])]
        have hnetf : obsContributesNet r = false := by
          simp [obsContributesNet, hnet]
        simp [hnetf]

/-- Claim C8 (amended): the security pipeline emits panels exactly in
declared output order — the i-th panel carries the title and kind of the
i-th non-suppressed output — while the observability pipeline emits line
panels in request order and merges all network requests into a single
combined network panel emitted last. -/
theorem C8_panel_order :
    (∀ (plan : Plan) (mcp : String → Int → List McpRow),
        (runPanels plan mcp).map (fun p => (panelTitle p, panelKind p)) =
          (plan.outputs.filter activeOutput).map outputPanelShape) ∧
    (∀ (plan : ObsPlan) (tl : Nat → String),
        (runObservabilityPanels plan tl).map (fun p => (panelTitle p, panelKind p)) =
          ((plan.requests.filter (fun r => r.viz == "line")).map
            (fun r => (r.title, "line"))) ++
          (if plan.requests.any obsContributesNet
           then [(obsNetworkTitle plan.language, "network")] else [])) := by
  constructor
  · intro plan mcp
    exact runPanelsGo_shape plan mcp plan.outputs 0
  · intro plan tl
    have h := runObsGo_shape plan tl plan.requests 0 []
    simpa using h
